import Mathlib

/-!
A shallow embedding, in Lean 4, of the quote-aggregation core of the
`ai-bridge-router` service (Rust), together with theorems settling the
frozen claims about it.

Modelling conventions.
* Rust `f64` values are modelled as exact rationals (`ℚ`); a value that may
  be NaN is modelled as `Option ℚ` with `none` playing the role of NaN.
  Floating-point rounding of products/sums is idealised as exact rational
  arithmetic.
* The Rust saturating float-to-integer cast (`as u64`) is modelled
  explicitly: NaN goes to 0, negative values go to 0, values at or above
  `2^64` go to `2^64 - 1`, everything else truncates toward zero.
* Effectful calls (Redis, the database, the ten bridge adapters) are
  modelled by passing their outcomes in an environment record; the handler
  additionally returns the ordered trace of Redis commands it issued, so
  that claims about increments and TTLs can be stated.
* Machine integers (`u64`, `i64`) are modelled as `ℕ`/`ℤ`; overflow is
  irrelevant at the values the claims touch except in the float cast above,
  where saturation is modelled explicitly.
-/

namespace BridgeRouter

/-! ## String helpers

Rust's `to_uppercase` / `to_lowercase` / `trim` / `eq_ignore_ascii_case`
are modelled character-listwise.  Case mapping is modelled on the ASCII
range (every chain key and token symbol the router handles is ASCII, where
Rust's Unicode case mapping and the ASCII one agree). -/

/-- Uppercase an ASCII letter, leave every other character alone. -/
def asciiUpper (c : Char) : Char :=
  if 'a' ≤ c ∧ c ≤ 'z' then Char.ofNat (c.toNat - 32) else c

/-- Lowercase an ASCII letter, leave every other character alone. -/
def asciiLower (c : Char) : Char :=
  if 'A' ≤ c ∧ c ≤ 'Z' then Char.ofNat (c.toNat + 32) else c

/-- Rust `str::to_uppercase`. -/
def strToUpper (s : String) : String := ⟨s.data.map asciiUpper⟩

/-- Rust `str::to_lowercase`. -/
def strToLower (s : String) : String := ⟨s.data.map asciiLower⟩

/-- Rust `str::trim`: strip leading and trailing whitespace. -/
def strTrim (s : String) : String :=
  ⟨((s.data.dropWhile Char.isWhitespace).reverse.dropWhile Char.isWhitespace).reverse⟩

/-- Rust `str::eq_ignore_ascii_case`. -/
def eqIgnoreAsciiCase (a b : String) : Bool :=
  a.data.map asciiLower == b.data.map asciiLower

/-! ## f64 model and the saturating cast (src/routes/quotes.rs:91-109) -/

/-- A Rust `f64` value: `none` models NaN, `some q` a (finite) numeric value. -/
def F64 : Type := Option ℚ

instance : DecidableEq F64 := inferInstanceAs (DecidableEq (Option ℚ))

/-- Multiplication of an `f64` by a numeric constant (NaN propagates). -/
def fmul (x : F64) (c : ℚ) : F64 := x.map (fun q => q * c)

/-- Rust `<f64> as u64`: NaN to 0, negative to 0, `≥ 2^64` saturates to
`u64::MAX`, otherwise truncation toward zero. -/
def f64AsU64 : F64 → ℕ
  | none => 0
  | some q => if q < 0 then 0 else if (2:ℚ)^64 ≤ q then 2^64 - 1 else ⌊q⌋.toNat

/-- Rust `f64 <= 0.0` (false for NaN). -/
def f64LeZero : F64 → Bool
  | none => false
  | some q => decide (q ≤ 0)

/-- `amount_to_smallest_unit` from src/routes/quotes.rs:91-109: scale a
human-readable amount to a smallest-unit decimal string.  `USDC`/`USDT` use
6 decimals; `ETH`/`WETH`/`DAI` and the default arm both use 18 decimals. -/
def amount_to_smallest_unit (amount : F64) (token : String) : String :=
  match strToUpper token with
  | "USDC" | "USDT" => toString (f64AsU64 (fmul amount 1000000))
  | "ETH" | "WETH" | "DAI" => toString (f64AsU64 (fmul amount 1000000000000000000))
  | _ => toString (f64AsU64 (fmul amount 1000000000000000000))

/-- `get_token_decimals` from src/services/bridge_client/cbridge.rs:104-110
(the adapter-side decimals table; orbiter.rs has the same table). -/
def get_token_decimals (token : String) : ℕ :=
  match strToUpper token with
  | "USDC" | "USDT" => 6
  | "WBTC" => 8
  | _ => 18

/-! ## Scoring (src/services/scoring.rs) -/

/-- Scoring weights (src/services/scoring.rs:16-31). -/
structure ScoringWeights where
  fee_weight : ℚ
  time_weight : ℚ
  security_weight : ℚ
deriving DecidableEq

/-- `ScoringWeights::default`: 0.4 / 0.4 / 0.2. -/
def ScoringWeights.default : ScoringWeights :=
  { fee_weight := 2/5, time_weight := 2/5, security_weight := 1/5 }

/-- Scoring configuration (src/services/scoring.rs:34-53). -/
structure ScoringConfig where
  max_fee_threshold : ℚ
  max_time_threshold : ℕ
  audit_bonus : ℚ
  exploit_penalty : ℚ
  weights : ScoringWeights
deriving DecidableEq

/-- `ScoringConfig::default`: threshold 0.01, 3600 s, bonus 0.2, penalty 0.5. -/
def ScoringConfig.default : ScoringConfig :=
  { max_fee_threshold := 1/100
    max_time_threshold := 3600
    audit_bonus := 1/5
    exploit_penalty := 1/2
    weights := ScoringWeights.default }

/-- Rust `x.clamp(lo, hi)` on numeric values: `lo` if `x < lo`, `hi` if
`hi < x`, else `x`. -/
def rclamp (x lo hi : ℚ) : ℚ := if x < lo then lo else if hi < x then hi else x

/-- `calculate_score_with_config` from src/services/scoring.rs:76-134. -/
def calculate_score_with_config (fee : ℚ) (est_time : ℕ)
    (has_audit has_exploit : Bool) (config : ScoringConfig) : ℚ :=
  let fee_score : ℚ :=
    if fee ≤ 0 then 1
    else if config.max_fee_threshold ≤ fee then 0
    else 1 - fee / config.max_fee_threshold
  let time_score : ℚ :=
    if est_time = 0 then 1
    else if config.max_time_threshold ≤ est_time then 0
    else 1 - (est_time : ℚ) / (config.max_time_threshold : ℚ)
  let security_score : ℚ :=
    (1/2) + (if has_audit then config.audit_bonus else 0)
          - (if has_exploit then config.exploit_penalty else 0)
  let security_score := rclamp security_score 0 1
  let final_score :=
    config.weights.fee_weight * fee_score
    + config.weights.time_weight * time_score
    + config.weights.security_weight * security_score
  rclamp final_score 0 1

/-- `calculate_score` from src/services/scoring.rs:65-73 (default config). -/
def calculate_score (fee : ℚ) (est_time : ℕ) (has_audit has_exploit : Bool) : ℚ :=
  calculate_score_with_config fee est_time has_audit has_exploit ScoringConfig.default

/-- `clamp01` as the spec (§4.4) uses it: restrict to `[0, 1]`. -/
def clamp01 (x : ℚ) : ℚ := if x < 0 then 0 else if 1 < x then 1 else x

/-- The scorer as the spec (§4.4) describes it, for comparison with
`calculate_score`:
`clamp01(0.4·feeScore + 0.4·timeScore + 0.2·secScore)` with
`feeScore = clamp01(1 − fee/0.01)`, `timeScore = clamp01(1 − t/3600)`,
`secScore = clamp01(0.5 + audit bonus − exploit penalty)`. -/
def calculate_score_spec (fee : ℚ) (est_time : ℕ)
    (has_audit has_exploit : Bool) : ℚ :=
  let feeScore := clamp01 (1 - fee / (1/100))
  let timeScore := clamp01 (1 - (est_time : ℚ) / 3600)
  let secScore := clamp01 ((1/2) + (if has_audit then (1/5 : ℚ) else 0)
                                 - (if has_exploit then (1/2 : ℚ) else 0))
  clamp01 ((2/5) * feeScore + (2/5) * timeScore + (1/5) * secScore)

/-! ## Bridge client (src/services/bridge_client.rs, src/models/bridge.rs) -/

/-- `BridgeQuote` from src/models/bridge.rs (as used by routes/quotes.rs).
`metadata` is opaque JSON and irrelevant to every claim, so it is dropped;
`score` is `None` until scoring and never read by the handler. -/
structure BridgeQuote where
  bridge : String
  fee : ℚ
  est_time : ℕ
  liquidity : String
deriving DecidableEq

/-- `BridgeError` from src/models/bridge.rs:27-59 (payloads kept as the
displayed strings/numbers that the claims can observe). -/
inductive BridgeError where
  | timeout_ms (ms : ℕ)
  | badResponse (message : String)
  | unsupportedAsset (asset : String)
  | unsupportedRoute (from_chain to_chain : String)
  | network (message : String)
  | jsonParsing (message : String)
  | rateLimited
  | serviceUnavailable
  | internal (message : String)
deriving DecidableEq

/-- The error classes `retry_request` refuses to retry
(src/services/bridge_client.rs:476-481). -/
def BridgeError.nonRetryable : BridgeError → Bool
  | .unsupportedAsset _ => true
  | .unsupportedRoute _ _ => true
  | .jsonParsing _ => true
  | _ => false

/-- Outcome of one adapter future after its `timeout` wrapper
(src/services/bridge_client.rs:38-47): the future timed out, returned a
`BridgeError`, or returned a quote. -/
inductive AdapterOutcome where
  | timedOut
  | failed (e : String)
  | success (q : BridgeQuote)
deriving DecidableEq

/-- Whether the adapter produced a quote. -/
def AdapterOutcome.isSuccess : AdapterOutcome → Bool
  | .success _ => true
  | _ => false

/-- The joined outcomes of the ten adapter futures, one field per registered
adapter (src/services/bridge_client.rs:38-71). -/
structure AdapterOutcomes where
  everclear : AdapterOutcome
  hop : AdapterOutcome
  axelar : AdapterOutcome
  across : AdapterOutcome
  stargate : AdapterOutcome
  wormhole : AdapterOutcome
  layerzero : AdapterOutcome
  orbiter : AdapterOutcome
  cbridge : AdapterOutcome
  synapse : AdapterOutcome
deriving DecidableEq

/-- `BridgeQuoteWithError` from src/services/bridge_client.rs:20-24. -/
structure BridgeQuoteWithError where
  bridge : String
  quote : Option BridgeQuote
  error : Option String
deriving DecidableEq

/-- One `match` arm block of `get_all_bridge_quotes`
(src/services/bridge_client.rs:76-107 and its nine clones): success keeps
the quote, an adapter error keeps its display string, a timeout records
`"Timeout after <secs>s"`. -/
def mkResult (name : String) (timeoutSecs : ℕ) : AdapterOutcome → BridgeQuoteWithError
  | .success q => { bridge := name, quote := some q, error := none }
  | .failed e => { bridge := name, quote := none, error := some e }
  | .timedOut =>
      { bridge := name, quote := none
        error := some ("Timeout after " ++ toString timeoutSecs ++ "s") }

/-- `get_all_bridge_quotes` from src/services/bridge_client.rs:26-416: the
ten per-adapter results pushed in the fixed registry order. -/
def get_all_bridge_quotes (timeoutSecs : ℕ) (o : AdapterOutcomes) :
    List BridgeQuoteWithError :=
  [ mkResult "Everclear" timeoutSecs o.everclear
  , mkResult "Hop" timeoutSecs o.hop
  , mkResult "Axelar" timeoutSecs o.axelar
  , mkResult "Across" timeoutSecs o.across
  , mkResult "Stargate" timeoutSecs o.stargate
  , mkResult "Wormhole" timeoutSecs o.wormhole
  , mkResult "LayerZero" timeoutSecs o.layerzero
  , mkResult "Orbiter" timeoutSecs o.orbiter
  , mkResult "cBridge" timeoutSecs o.cbridge
  , mkResult "Synapse" timeoutSecs o.synapse ]

/-! ## `retry_request` (src/services/bridge_client.rs:459-503)

The async operation is modelled as a function from the attempt index to that
attempt's result; `retry_go` returns the final result together with the
number of executions performed and the list of back-off sleeps (in
milliseconds) in the order they were issued. -/

/-- The purely structural retry loop: `fuel` bounds the remaining
iterations (the caller supplies `retries + 1`, matching `for attempt in
0..=retries`); when the range is exhausted the code returns the last error,
and the `fuel = 0` fallback mirrors the unreachable
`last_error.unwrap_or_else(Internal)` at bridge_client.rs:500-502. -/
def retry_go {T : Type} (op : ℕ → Except BridgeError T) (retries : ℕ) :
    (fuel attempt : ℕ) → Except BridgeError T × ℕ × List ℕ
  | 0, _ => (.error (.internal "Retry loop completed without error"), 0, [])
  | fuel + 1, attempt =>
    match op attempt with
    | .ok v => (.ok v, 1, [])
    | .error err =>
      if attempt < retries then
        if err.nonRetryable then (.error err, 1, [])
        else
          let rest := retry_go op retries fuel (attempt + 1)
          (rest.1, rest.2.1 + 1, (100 * 2 ^ attempt) :: rest.2.2)
      else (.error err, 1, [])

/-- `retry_request`: run the loop from attempt 0; gives the result, the
total number of times the operation executed, and the back-off sleeps. -/
def retry_request {T : Type} (op : ℕ → Except BridgeError T) (retries : ℕ) :
    Except BridgeError T × ℕ × List ℕ :=
  retry_go op retries (retries + 1) 0

/-! ## Security metadata repository (src/db/repository.rs:312-415) -/

/-- `SecurityMetadata` from src/services/scoring.rs:5-13 (`total_loss_usd`
as exact rational; `exploit_count` is a `u32` count). -/
structure SecurityMetadata where
  bridge : String
  has_audit : Bool
  has_exploit : Bool
  latest_audit_result : Option String
  exploit_count : ℕ
  total_loss_usd : Option ℚ
deriving DecidableEq

/-- A row of the `audit_reports` table (columns the queries touch). -/
structure AuditReport where
  bridge : String
  audit_date : ℤ
  result : Option String
deriving DecidableEq

/-- A row of the `exploit_history` table (columns the queries touch). -/
structure ExploitEvent where
  bridge : String
  loss_amount : ℚ
deriving DecidableEq

/-- The two tables the security repository reads. -/
structure Database where
  audit_reports : List AuditReport
  exploit_history : List ExploitEvent
deriving DecidableEq

/-- One result row of the audit `GROUP BY` query at repository.rs:327-342. -/
structure AuditRow where
  bridge : String
  audit_count : ℕ
  latest_result : Option String
deriving DecidableEq

/-- One result row of the exploit `GROUP BY` query at repository.rs:351-362. -/
structure ExploitRow where
  bridge : String
  exploit_count : ℕ
  total_loss : ℚ
deriving DecidableEq

/-- The distinct keys of a `GROUP BY`, in first-occurrence order (the SQL
row order is unspecified; the code only pours the rows into a `HashMap`, so
any enumeration of the distinct keys is faithful). -/
def dedupFirst (l : List String) : List String :=
  l.foldl (fun acc b => if acc.contains b then acc else acc ++ [b]) []

/-- `ORDER BY audit_date DESC LIMIT 1`: a row of maximal date. -/
def latestAudit (rs : List AuditReport) : Option AuditReport :=
  rs.foldl
    (fun acc r =>
      match acc with
      | none => some r
      | some a => if a.audit_date < r.audit_date then some r else some a)
    none

/-- The audit query at repository.rs:327-348: per bridge present in the
table and in `names`, the row count and the most recent `result`. -/
def auditQuery (tbl : List AuditReport) (names : List String) : List AuditRow :=
  let rows := tbl.filter (fun r => names.contains r.bridge)
  (dedupFirst (rows.map (fun r => r.bridge))).map (fun b =>
    let rs := rows.filter (fun r => r.bridge == b)
    { bridge := b, audit_count := rs.length
      latest_result := (latestAudit rs).bind (fun r => r.result) })

/-- The exploit query at repository.rs:351-368: per bridge present in the
table and in `names`, the row count and `COALESCE(SUM(loss_amount), 0)`. -/
def exploitQuery (tbl : List ExploitEvent) (names : List String) : List ExploitRow :=
  let rows := tbl.filter (fun r => names.contains r.bridge)
  (dedupFirst (rows.map (fun r => r.bridge))).map (fun b =>
    let rs := rows.filter (fun r => r.bridge == b)
    { bridge := b, exploit_count := rs.length
      total_loss := rs.foldl (fun s r => s + r.loss_amount) 0 })

/-- Lookup in a `HashMap` built by `collect()` from a row list keyed by a
string: the LAST inserted row for the key wins. -/
def lookupLast {α : Type} (key : α → String) (l : List α) (b : String) : Option α :=
  (l.filter (fun x => key x == b)).getLast?

/-- `SecurityRepository::get_batch_security_metadata`
(src/db/repository.rs:312-415): empty input short-circuits; otherwise run
both grouped queries, pour them into maps, and build one `SecurityMetadata`
per requested name in input order, defaulting missing rows to zero. -/
def get_batch_security_metadata (db : Database) (bridge_names : List String) :
    List SecurityMetadata :=
  if bridge_names.isEmpty then []
  else
    let audit_results := auditQuery db.audit_reports bridge_names
    let exploit_results := exploitQuery db.exploit_history bridge_names
    bridge_names.map (fun b =>
      let audit := lookupLast (fun r => r.bridge) audit_results b
      let audit_count := (audit.map (fun r => r.audit_count)).getD 0
      let latest_result := (audit.map (fun r => r.latest_result)).getD none
      let exploit := lookupLast (fun r => r.bridge) exploit_results b
      let exploit_count := (exploit.map (fun r => r.exploit_count)).getD 0
      let total_loss := (exploit.map (fun r => r.total_loss)).getD 0
      { bridge := b
        has_audit := decide (0 < audit_count)
        has_exploit := decide (0 < exploit_count)
        latest_audit_result := latest_result
        exploit_count := exploit_count
        total_loss_usd := if 0 < total_loss then some total_loss else none })

/-! ## The /quotes handler (src/routes/quotes.rs) -/

/-- `QuoteParams` as routes/quotes.rs consumes it (from_chain, to_chain,
token, amount). -/
structure QuoteParams where
  from_chain : String
  to_chain : String
  token : String
  amount : F64
deriving DecidableEq

/-- `QuoteResponse` as routes/quotes.rs builds it
(convert_bridge_quote_to_response_with_score, quotes.rs:38-46). -/
structure QuoteResponse where
  bridge : String
  cost : ℚ
  est_time : ℕ
  liquidity : String
  score : ℚ
deriving DecidableEq

/-- `BridgeQuoteError` from src/models/quote.rs:160-163. -/
structure BridgeQuoteError where
  bridge : String
  error : String
deriving DecidableEq

/-- `AggregatedQuotesResponse` as routes/quotes.rs builds it
(quotes.rs:470-478). -/
structure AggregatedQuotesResponse where
  routes : List QuoteResponse
  errors : List BridgeQuoteError
deriving DecidableEq

/-- `ErrorResponse` from src/models/quote.rs:167-169: a single message
string, nothing else. -/
structure ErrorResponse where
  error : String
deriving DecidableEq

/-- Display of an `f64` amount inside the cache key (quotes.rs:27-35).
Exact decimal formatting of floats is abstracted by the rational `toString`;
no claim depends on the digits. -/
def f64Repr : F64 → String
  | none => "NaN"
  | some q => toString q

/-- `generate_cache_key` from src/routes/quotes.rs:27-35. -/
def generate_cache_key (params : QuoteParams) : String :=
  "quotes:" ++ strToLower params.from_chain ++ ":" ++ strToLower params.to_chain
    ++ ":" ++ strToUpper params.token ++ ":" ++ f64Repr params.amount

/-- A header value that exists and converted to a string (`to_str` Ok). -/
def headerCandidate (v : Option String) : Option String :=
  v.bind (fun s => if s ≠ "" && s ≠ "unknown" then some s else none)

/-- The X-Forwarded-For branch of `extract_client_ip`
(quotes.rs:53-63): first comma-separated token, trimmed, if non-empty and
not `"unknown"`. -/
def xffCandidate (v : Option String) : Option String :=
  v.bind (fun s =>
    let ip := strTrim ⟨s.data.takeWhile (fun c => c ≠ ',')⟩
    if ip ≠ "" && ip ≠ "unknown" then some ip else none)

/-- `extract_client_ip` from src/routes/quotes.rs:51-88. -/
def extract_client_ip (xff xrip cfip connectInfo : Option String) : String :=
  match xffCandidate xff with
  | some ip => ip
  | none =>
    match headerCandidate xrip with
    | some ip => ip
    | none =>
      match headerCandidate cfip with
      | some ip => ip
      | none => connectInfo.getD "127.0.0.1"

/-- Outcome of a Redis `get_cache` probe: a deserialised hit, a miss, or a
Redis/serde error (the handler treats `err` like `miss` on both probes). -/
inductive CacheLookup where
  | hit (v : AggregatedQuotesResponse)
  | miss
  | err
deriving DecidableEq

/-- Whether the probe produced a value. -/
def CacheLookup.isHit : CacheLookup → Bool
  | .hit _ => true
  | _ => false

/-- All effect outcomes one `/quotes` request can observe, in the order the
handler consults them. `incrResult = none` models a failed Redis INCRBY
(quotes.rs:203-210); `securityResult = none` models a repository error or
the 3 s metadata timeout (quotes.rs:124-139). -/
structure Env where
  xForwardedFor : Option String
  xRealIp : Option String
  cfConnectingIp : Option String
  connectInfo : Option String
  incrResult : Option ℤ
  freshLookup : CacheLookup
  adapters : AdapterOutcomes
  staleLookup : CacheLookup
  securityResult : Option (List SecurityMetadata)
deriving DecidableEq

/-- The Redis commands the handler issues, in order. -/
inductive RedisCmd where
  | incrby (key : String) (delta : ℤ)
  | expireCmd (key : String) (ttl : ℕ)
  | getCache (key : String)
  | setCache (key : String) (ttl : ℕ)
deriving DecidableEq

/-- X-Cache response header discriminator. -/
inductive XCache where
  | hit
  | miss
  | stale
deriving DecidableEq

/-- The handler's possible responses (status + JSON body). -/
inductive HttpResponse where
  | tooManyRequests (body : ErrorResponse)
  | badRequest (body : ErrorResponse)
  | okResp (cache : XCache) (body : AggregatedQuotesResponse)
  | badGateway (body : ErrorResponse)
deriving DecidableEq

/-- Whether the response is the 429 rate-limit rejection. -/
def HttpResponse.isRateLimited : HttpResponse → Bool
  | .tooManyRequests _ => true
  | _ => false

/-- `process_quotes_with_security` from src/routes/quotes.rs:112-166: fetch
metadata (already resolved in `securityResult`; errors and timeouts become
the empty list), build the bridge-keyed map, and score each quote with
`unwrap_or(false)` defaults. -/
def process_quotes_with_security (bridge_quotes : List BridgeQuote)
    (securityResult : Option (List SecurityMetadata)) : List QuoteResponse :=
  let security_metadata := securityResult.getD []
  bridge_quotes.map (fun quote =>
    let security := lookupLast (fun m => m.bridge) security_metadata quote.bridge
    let has_audit := (security.map (fun s => s.has_audit)).getD false
    let has_exploit := (security.map (fun s => s.has_exploit)).getD false
    let score := calculate_score quote.fee quote.est_time has_audit has_exploit
    { bridge := quote.bridge, cost := quote.fee, est_time := quote.est_time
      liquidity := quote.liquidity, score := score })

/-- The validation chain of `get_quotes` (src/routes/quotes.rs:248-302), in
source order; `some` is the 400 body of the first failed check. -/
def validate_params (params : QuoteParams) : Option ErrorResponse :=
  if params.from_chain.isEmpty then
    some { error := "from_chain parameter is required" }
  else if params.to_chain.isEmpty then
    some { error := "to_chain parameter is required" }
  else if params.token.isEmpty then
    some { error := "token parameter is required" }
  else if f64LeZero params.amount then
    some { error := "amount must be greater than 0" }
  else if eqIgnoreAsciiCase params.from_chain params.to_chain then
    some { error := "Source and destination chains must be different" }
  else none

/-- The fresh-cache-miss tail of `get_quotes`
(src/routes/quotes.rs:339-541): convert the amount, fan out to all bridges,
partition quotes and errors, fall back to the stale cache (or 502) when no
quote succeeded, otherwise score, cache and answer `X-Cache: MISS`. -/
def aggregate_quotes (params : QuoteParams) (env : Env) :
    HttpResponse × List RedisCmd :=
  let cache_key := generate_cache_key params
  let _amount_smallest_unit := amount_to_smallest_unit params.amount params.token
  let bridge_results := get_all_bridge_quotes 5 env.adapters
  let quotes := bridge_results.filterMap (fun r => r.quote)
  let errors := bridge_results.filterMap
    (fun r => r.error.map (fun e => BridgeQuoteError.mk r.bridge e))
  if quotes.isEmpty then
    let stale_cache_key := cache_key ++ "_stale"
    match env.staleLookup with
    | .hit stale =>
        (.okResp .stale stale, [.getCache cache_key, .getCache stale_cache_key])
    | _ =>
        (.badGateway { error := "No quotes available and no cached data found" },
         [.getCache cache_key, .getCache stale_cache_key])
  else
    let routes := process_quotes_with_security quotes env.securityResult
    let has_routes := !routes.isEmpty
    let response : AggregatedQuotesResponse :=
      { routes := routes
        errors := if !has_routes && !errors.isEmpty then errors else [] }
    let stale_cache_key := cache_key ++ "_stale"
    (.okResp .miss response,
     [.getCache cache_key, .setCache cache_key 15, .setCache stale_cache_key 300])

/-- The body of `get_quotes` after the rate-limit block
(src/routes/quotes.rs:248-541): validation, then the fresh-cache probe,
then `aggregate_quotes`.  Returns the response and the Redis commands
issued by this part. -/
def get_quotes_core (params : QuoteParams) (env : Env) :
    HttpResponse × List RedisCmd :=
  match validate_params params with
  | some err => (.badRequest err, [])
  | none =>
    match env.freshLookup with
    | .hit cached => (.okResp .hit cached, [.getCache (generate_cache_key params)])
    | _ => aggregate_quotes params env

/-- `get_quotes` from src/routes/quotes.rs:169-542.  The rate-limit block
(quotes.rs:179-246) runs first: INCRBY by 1, a failed increment counts as
0, over 100 means 429, a count of exactly 1 gets a 60 s EXPIRE; everything
else is `get_quotes_core`. -/
def get_quotes (params : QuoteParams) (env : Env) :
    HttpResponse × List RedisCmd :=
  let client_ip := extract_client_ip env.xForwardedFor env.xRealIp
    env.cfConnectingIp env.connectInfo
  let rate_limit_key := "rate_limit:quotes:" ++ client_ip
  let request_count : ℤ := env.incrResult.getD 0
  if 100 < request_count then
    (.tooManyRequests { error := "Rate limit exceeded. Maximum 100 requests per minute." },
     [.incrby rate_limit_key 1])
  else
    let expire_trace : List RedisCmd :=
      if request_count = 1 then [.expireCmd rate_limit_key 60] else []
    let rest := get_quotes_core params env
    (rest.1, .incrby rate_limit_key 1 :: (expire_trace ++ rest.2))

/-! ## Derived observations used by the claims -/

/-- Routes of a 200 response (empty for error responses). -/
def HttpResponse.routesOrEmpty : HttpResponse → List QuoteResponse
  | .okResp _ body => body.routes
  | _ => []

/-- Whether the response is a fresh 200 aggregation (`X-Cache: MISS`). -/
def HttpResponse.isMissOk : HttpResponse → Bool
  | .okResp .miss _ => true
  | _ => false

/-- The ordering the spec demands of `routes`: score strictly descending,
ties broken by bridge name ascending, checked on adjacent entries. -/
def routesSortedSpec (l : List QuoteResponse) : Prop :=
  List.Chain' (fun a b => b.score < a.score ∨ (a.score = b.score ∧ a.bridge ≤ b.bridge)) l

/-! ## Concrete inputs used by counterexamples and witnesses -/

/-- A well-formed request: ethereum → polygon, 1 USDC. -/
def baseParams : QuoteParams :=
  { from_chain := "ethereum", to_chain := "polygon", token := "USDC", amount := some 1 }

/-- A request whose chains differ only by case. -/
def sameChainParams : QuoteParams :=
  { from_chain := "ethereum", to_chain := "Ethereum", token := "USDC", amount := some 1 }

/-- Ten adapter outcomes that all fail with the same error message. -/
def allFailedWith (msg : String) : AdapterOutcomes :=
  { everclear := .failed msg, hop := .failed msg, axelar := .failed msg
    across := .failed msg, stargate := .failed msg, wormhole := .failed msg
    layerzero := .failed msg, orbiter := .failed msg, cbridge := .failed msg
    synapse := .failed msg }

/-- An environment: request number 1 from 10.0.0.1, empty caches, all
adapters down, no security metadata. -/
def baseEnv : Env :=
  { xForwardedFor := none, xRealIp := none, cfConnectingIp := none
    connectInfo := some "10.0.0.1", incrResult := some 1, freshLookup := .miss
    adapters := allFailedWith "boom", staleLookup := .miss, securityResult := none }

/-- Adapter outcomes where Everclear returns a low-scoring quote and Hop a
high-scoring one (registry order puts Everclear first). -/
def twoQuoteOutcomes : AdapterOutcomes :=
  { allFailedWith "down" with
    everclear := .success { bridge := "Everclear", fee := 1, est_time := 3600, liquidity := "2M USDC" }
    hop := .success { bridge := "Hop", fee := 0, est_time := 0, liquidity := "1M USDC" } }

/-! ## Generic small lemmas -/

theorem clamp01_of_one_le {x : ℚ} (h : 1 ≤ x) : clamp01 x = 1 := by
  unfold clamp01; split_ifs <;> linarith

theorem clamp01_of_nonpos {x : ℚ} (h : x ≤ 0) : clamp01 x = 0 := by
  unfold clamp01; split_ifs <;> linarith

theorem clamp01_of_mem {x : ℚ} (h0 : 0 ≤ x) (h1 : x ≤ 1) : clamp01 x = x := by
  unfold clamp01; split_ifs <;> linarith

theorem rclamp01_eq_clamp01 (x : ℚ) : rclamp x 0 1 = clamp01 x := rfl

theorem clamp01_nonneg (x : ℚ) : 0 ≤ clamp01 x := by
  unfold clamp01; split_ifs <;> linarith

theorem clamp01_le_one (x : ℚ) : clamp01 x ≤ 1 := by
  unfold clamp01; split_ifs <;> linarith

/-- The two-threshold scoring branch equals a clamped linear ramp. -/
theorem ramp_eq_clamp01 {x c : ℚ} (hc : 0 < c) :
    (if x ≤ 0 then (1 : ℚ) else if c ≤ x then 0 else 1 - x / c) = clamp01 (1 - x / c) := by
  rcases le_or_lt x 0 with h0 | h0
  · rw [if_pos h0, clamp01_of_one_le]
    have h2 : x / c ≤ 0 / c := (div_le_div_iff_of_pos_right hc).mpr h0
    rw [zero_div] at h2
    linarith
  · rw [if_neg (not_le.mpr h0)]
    rcases le_or_lt c x with h1 | h1
    · rw [if_pos h1, clamp01_of_nonpos]
      have : 1 ≤ x / c := (one_le_div hc).mpr h1
      linarith
    · rw [if_neg (not_le.mpr h1), clamp01_of_mem]
      · have : x / c < 1 := (div_lt_one hc).mpr h1
        linarith
      · have : 0 < x / c := div_pos h0 hc
        linarith

/-- The handler-side conversion always multiplies by `10^6` for USDC/USDT
(after uppercasing) and by `10^18` for every other token. -/
theorem amount_to_smallest_unit_eq (amount : F64) (token : String) :
    amount_to_smallest_unit amount token =
      toString (f64AsU64 (fmul amount
        ((10 : ℚ) ^ (if strToUpper token = "USDC" ∨ strToUpper token = "USDT"
                     then 6 else 18)))) := by
  unfold amount_to_smallest_unit
  split
  all_goals rename_i heq
  · rw [if_pos (Or.inl heq)]; norm_num
  · rw [if_pos (Or.inr heq)]; norm_num
  · rw [if_neg (by rw [heq]; decide)]; norm_num
  · rw [if_neg (by rw [heq]; decide)]; norm_num
  · rw [if_neg (by rw [heq]; decide)]; norm_num
  · rw [if_neg (by rintro (h | h) <;> simp_all)]; norm_num

theorem f64AsU64_some (q : ℚ) :
    f64AsU64 (some q) =
      if q < 0 then 0 else if (2:ℚ)^64 ≤ q then 2^64 - 1 else ⌊q⌋.toNat := rfl

theorem f64AsU64_neg {q : ℚ} (h : q < 0) : f64AsU64 (some q) = 0 := by
  rw [f64AsU64_some, if_pos h]

theorem f64AsU64_sat {q : ℚ} (h : (2:ℚ)^64 ≤ q) : f64AsU64 (some q) = 2^64 - 1 := by
  have h0 : ¬ q < 0 := not_lt.mpr (le_trans (by positivity) h)
  rw [f64AsU64_some, if_neg h0, if_pos h]

theorem f64AsU64_mid {q : ℚ} (h0 : 0 ≤ q) (h1 : q < (2:ℚ)^64) :
    f64AsU64 (some q) = ⌊q⌋.toNat := by
  rw [f64AsU64_some, if_neg (not_lt.mpr h0), if_neg (not_le.mpr h1)]

/-- C10.  `amount_to_smallest_unit` truncates rather than rounds: writing
`d = 6` for USDC/USDT and `d = 18` otherwise, the NaN amount gives `"0"`, a
negative product gives `"0"`, a product in `[0, 2^64)` gives the decimal
string of its floor (the fraction below one smallest unit is dropped), and
a product at or above `2^64` saturates to the decimal string of
`u64::MAX = 2^64 - 1`. -/
theorem C10_truncating_saturating_cast (token : String) :
    (amount_to_smallest_unit none token = "0") ∧
    (∀ q : ℚ,
      q * (10 : ℚ) ^ (if strToUpper token = "USDC" ∨ strToUpper token = "USDT"
                      then 6 else 18) < 0 →
      amount_to_smallest_unit (some q) token = "0") ∧
    (∀ q : ℚ,
      0 ≤ q * (10 : ℚ) ^ (if strToUpper token = "USDC" ∨ strToUpper token = "USDT"
                          then 6 else 18) →
      q * (10 : ℚ) ^ (if strToUpper token = "USDC" ∨ strToUpper token = "USDT"
                      then 6 else 18) < (2:ℚ)^64 →
      amount_to_smallest_unit (some q) token =
        toString (⌊q * (10 : ℚ) ^ (if strToUpper token = "USDC" ∨ strToUpper token = "USDT"
                                   then 6 else 18)⌋.toNat)) ∧
    (∀ q : ℚ,
      (2:ℚ)^64 ≤ q * (10 : ℚ) ^ (if strToUpper token = "USDC" ∨ strToUpper token = "USDT"
                                 then 6 else 18) →
      amount_to_smallest_unit (some q) token = toString ((2:ℕ)^64 - 1)) := by
  refine ⟨?_, ?_, ?_, ?_⟩
  · rw [amount_to_smallest_unit_eq]
    show toString (f64AsU64 none) = "0"
    decide
  · intro q h
    rw [amount_to_smallest_unit_eq]
    show toString (f64AsU64 (some _)) = _
    rw [f64AsU64_neg h]
    rfl
  · intro q h0 h1
    rw [amount_to_smallest_unit_eq]
    show toString (f64AsU64 (some _)) = _
    rw [f64AsU64_mid h0 h1]
  · intro q h
    rw [amount_to_smallest_unit_eq]
    show toString (f64AsU64 (some _)) = _
    rw [f64AsU64_sat h]

/-- Witness for C10 at concrete inputs: token `"ETH"` (18 decimals); the
truncation clause at amount `0`, and the NaN clause. -/
theorem C10_witness :
    ((0:ℚ) ≤ 0 * (10 : ℚ) ^ (if strToUpper "ETH" = "USDC" ∨ strToUpper "ETH" = "USDT"
                             then 6 else 18)) ∧
    (0 * (10 : ℚ) ^ (if strToUpper "ETH" = "USDC" ∨ strToUpper "ETH" = "USDT"
                     then 6 else 18) < (2:ℚ)^64) ∧
    (amount_to_smallest_unit none "ETH" = "0") ∧
    (amount_to_smallest_unit (some 0) "ETH" =
      toString (⌊(0 : ℚ) * (10 : ℚ) ^ (if strToUpper "ETH" = "USDC" ∨ strToUpper "ETH" = "USDT"
                                       then 6 else 18)⌋.toNat)) :=
  have hle : (0:ℚ) ≤ 0 * (10 : ℚ) ^ (if strToUpper "ETH" = "USDC" ∨ strToUpper "ETH" = "USDT"
      then 6 else 18) := le_of_eq (zero_mul _).symm
  have hlt : (0:ℚ) * (10 : ℚ) ^ (if strToUpper "ETH" = "USDC" ∨ strToUpper "ETH" = "USDT"
      then 6 else 18) < (2:ℚ)^64 :=
    (zero_mul ((10 : ℚ) ^ (if strToUpper "ETH" = "USDC" ∨ strToUpper "ETH" = "USDT"
      then 6 else 18))).symm ▸ pow_pos (by decide) 64
  ⟨hle, hlt, (C10_truncating_saturating_cast "ETH").1,
    (C10_truncating_saturating_cast "ETH").2.2.1 0 hle hlt⟩

/-- C4 (code bug).  At the failing input `amount = 1.0`, `token = "WBTC"`,
the handler's `amount_to_smallest_unit` scales by `10^18` and produces
`"1000000000000000000"`, while the shared decimals table — embodied in the
adapters' own `get_token_decimals`, which descale amounts for WBTC — says
WBTC has 8 decimals, under which the smallest-unit string of 1.0 WBTC is
`"100000000"`. -/
theorem C4_wbtc_decimals_bug :
    amount_to_smallest_unit (some 1) "WBTC" = "1000000000000000000" ∧
    get_token_decimals "WBTC" = 8 ∧
    toString ((10:ℕ)^8) = "100000000" ∧
    amount_to_smallest_unit (some 1) "WBTC" ≠ toString ((10:ℕ)^8) := by
  have h1 : amount_to_smallest_unit (some 1) "WBTC" = "1000000000000000000" := by
    rw [amount_to_smallest_unit_eq]
    rw [if_neg (by decide)]
    show toString (f64AsU64 (some ((1:ℚ) * 10 ^ 18))) = _
    rw [one_mul, f64AsU64_mid (by positivity) (by norm_num)]
    have hfl : ⌊((10:ℚ) ^ 18)⌋ = 1000000000000000000 := by norm_num
    rw [hfl]
    decide
  refine ⟨h1, by decide, by decide, ?_⟩
  rw [h1]; decide

/-- `calculate_score_with_config`, written out with its lets expanded. -/
theorem calculate_score_with_config_eq (fee : ℚ) (est_time : ℕ)
    (has_audit has_exploit : Bool) (cfg : ScoringConfig) :
    calculate_score_with_config fee est_time has_audit has_exploit cfg =
      rclamp
        (cfg.weights.fee_weight *
          (if fee ≤ 0 then (1:ℚ)
           else if cfg.max_fee_threshold ≤ fee then 0
           else 1 - fee / cfg.max_fee_threshold)
         + cfg.weights.time_weight *
          (if est_time = 0 then (1:ℚ)
           else if cfg.max_time_threshold ≤ est_time then 0
           else 1 - (est_time : ℚ) / (cfg.max_time_threshold : ℚ))
         + cfg.weights.security_weight *
          rclamp ((1/2) + (if has_audit then cfg.audit_bonus else 0)
                        - (if has_exploit then cfg.exploit_penalty else 0)) 0 1)
        0 1 := rfl

/-- The time branch of the scorer equals the spec's clamped ramp. -/
theorem time_ramp_eq_clamp01 (t : ℕ) :
    (if t = 0 then (1:ℚ) else if (3600:ℕ) ≤ t then 0
     else 1 - (t : ℚ) / (((3600:ℕ)) : ℚ)) =
    clamp01 (1 - (t : ℚ) / 3600) := by
  have hc : (((3600:ℕ)) : ℚ) = (3600 : ℚ) := by norm_num
  rcases Nat.eq_zero_or_pos t with h0 | h0
  · subst h0
    rw [if_pos rfl]
    symm
    apply clamp01_of_one_le
    norm_num
  · rw [if_neg (Nat.pos_iff_ne_zero.mp h0), hc]
    have base := ramp_eq_clamp01 (x := (t : ℚ)) (c := (3600:ℚ)) (by norm_num)
    rw [if_neg (by push_neg; exact_mod_cast h0)] at base
    rw [← base]
    by_cases h1 : (3600 : ℕ) ≤ t
    · rw [if_pos h1, if_pos (by exact_mod_cast h1)]
    · rw [if_neg h1, if_neg (by exact_mod_cast h1)]

/-- C5.  Under the default configuration, `calculate_score` computes
exactly the spec's formula
`clamp01(0.4·feeScore + 0.4·timeScore + 0.2·secScore)` with
`feeScore = clamp01(1 − fee/0.01)` (hence 1 whenever `fee ≤ 0`),
`timeScore = clamp01(1 − estTime/3600)` (hence 1 when `estTime = 0`) and
`secScore = clamp01(0.5 + (hasAudit ? 0.2 : 0) − (hasExploit ? 0.5 : 0))`,
and every output lies in `[0, 1]`. -/
theorem C5_score_formula (fee : ℚ) (est_time : ℕ) (has_audit has_exploit : Bool) :
    calculate_score fee est_time has_audit has_exploit =
      calculate_score_spec fee est_time has_audit has_exploit ∧
    0 ≤ calculate_score fee est_time has_audit has_exploit ∧
    calculate_score fee est_time has_audit has_exploit ≤ 1 := by
  have e1 : ScoringConfig.default.max_fee_threshold = 1/100 := rfl
  have e2 : ScoringConfig.default.max_time_threshold = 3600 := rfl
  have e3 : ScoringConfig.default.audit_bonus = 1/5 := rfl
  have e4 : ScoringConfig.default.exploit_penalty = 1/2 := rfl
  have e5 : ScoringConfig.default.weights.fee_weight = 2/5 := rfl
  have e6 : ScoringConfig.default.weights.time_weight = 2/5 := rfl
  have e7 : ScoringConfig.default.weights.security_weight = 1/5 := rfl
  have heq : calculate_score fee est_time has_audit has_exploit =
      calculate_score_spec fee est_time has_audit has_exploit := by
    unfold calculate_score
    rw [calculate_score_with_config_eq, e1, e2, e3, e4, e5, e6, e7]
    rw [ramp_eq_clamp01 (x := fee) (c := (1/100 : ℚ)) (by norm_num)]
    rw [time_ramp_eq_clamp01]
    simp only [rclamp01_eq_clamp01]
    rfl
  refine ⟨heq, ?_, ?_⟩
  · rw [heq]
    exact clamp01_nonneg _
  · rw [heq]
    exact clamp01_le_one _

theorem mkResult_bridge (name : String) (t : ℕ) (a : AdapterOutcome) :
    (mkResult name t a).bridge = name := by
  cases a <;> rfl

theorem mkResult_xor (name : String) (t : ℕ) (a : AdapterOutcome) :
    ((mkResult name t a).quote.isSome ^^ (mkResult name t a).error.isSome) = true := by
  cases a <;> rfl

/-- C6.  For every per-adapter timeout and every joint adapter outcome,
`get_all_bridge_quotes` returns exactly ten entries whose bridge names are,
in order, Everclear, Hop, Axelar, Across, Stargate, Wormhole, LayerZero,
Orbiter, cBridge, Synapse — independent of the outcomes (hence of
completion order) — and each entry has exactly one of `quote` / `error`
set. -/
theorem C6_aggregator_shape (t : ℕ) (o : AdapterOutcomes) :
    (get_all_bridge_quotes t o).length = 10 ∧
    (get_all_bridge_quotes t o).map (fun r => r.bridge) =
      ["Everclear", "Hop", "Axelar", "Across", "Stargate",
       "Wormhole", "LayerZero", "Orbiter", "cBridge", "Synapse"] ∧
    (get_all_bridge_quotes t o).all
      (fun r => r.quote.isSome ^^ r.error.isSome) = true := by
  refine ⟨rfl, ?_, ?_⟩
  · simp only [get_all_bridge_quotes, List.map_cons, List.map_nil, mkResult_bridge]
  · simp only [get_all_bridge_quotes, List.all_cons, List.all_nil, mkResult_xor,
      Bool.and_self, Bool.and_true]

/-- One failing step of the retry loop, with the `match` discharged. -/
theorem retry_go_error {T : Type} (op : ℕ → Except BridgeError T)
    (retries fuel attempt : ℕ) (e : BridgeError) (h : op attempt = .error e) :
    retry_go op retries (fuel + 1) attempt =
      if attempt < retries then
        if e.nonRetryable then (.error e, 1, [])
        else
          let rest := retry_go op retries fuel (attempt + 1)
          (rest.1, rest.2.1 + 1, (100 * 2 ^ attempt) :: rest.2.2)
      else (.error e, 1, []) := by
  rw [retry_go, h]

/-- C7.  `retry_request` executes a non-retryably failing operation exactly
once, returning that error with no back-off sleeps; and when every attempt
fails retryably it executes the operation `retries + 1` times, sleeps
`100·2^attempt` ms before retry `attempt+1`, and returns the last error. -/
theorem C7_retry_policy {T : Type} (op : ℕ → Except BridgeError T)
    (retries : ℕ) (errs : ℕ → BridgeError) :
    ((∀ i, op i = .error (errs i)) →
      ((errs 0).nonRetryable = true →
        retry_request op retries = (.error (errs 0), 1, [])) ∧
      ((∀ i, (errs i).nonRetryable = false) →
        retry_request op retries =
          (.error (errs retries), retries + 1,
           (List.range retries).map (fun attempt => 100 * 2 ^ attempt)))) := by
  intro hop
  constructor
  · intro hnr
    unfold retry_request
    rw [retry_go_error op retries retries 0 (errs 0) (hop 0)]
    rcases Nat.eq_zero_or_pos retries with h0 | h0
    · subst h0
      rw [if_neg (lt_irrefl 0)]
    · rw [if_pos h0, if_pos hnr]
  · intro hre
    have main : ∀ fuel attempt, attempt ≤ retries → fuel + attempt = retries + 1 →
        retry_go op retries fuel attempt =
          (.error (errs retries), fuel,
           (List.range' attempt (fuel - 1)).map (fun a => 100 * 2 ^ a)) := by
      intro fuel
      induction fuel with
      | zero => intro attempt hle hsum; omega
      | succ n ih =>
        intro attempt hle hsum
        rw [retry_go_error op retries n attempt (errs attempt) (hop attempt)]
        rcases lt_or_eq_of_le hle with hlt | heq
        · rw [if_pos hlt, if_neg (by rw [hre attempt]; exact Bool.false_ne_true)]
          rw [ih (attempt + 1) (by omega) (by omega)]
          have hrange : List.range' attempt (n + 1 - 1) =
              attempt :: List.range' (attempt + 1) (n - 1) := by
            have h2 : n + 1 - 1 = (n - 1) + 1 := by omega
            rw [h2, List.range'_succ]
          rw [hrange]
          simp
        · subst heq
          rw [if_neg (lt_irrefl attempt)]
          have h1 : n + 1 - 1 = 0 := by omega
          rw [h1]
          simp
          omega
    have hm := main (retries + 1) 0 (Nat.zero_le _) (by omega)
    unfold retry_request
    rw [hm]
    have hr : List.range' 0 (retries + 1 - 1) = List.range retries := by
      rw [Nat.add_sub_cancel, List.range_eq_range']
    rw [hr]

theorem aggregate_quotes_notRateLimited (p : QuoteParams) (env : Env) :
    (aggregate_quotes p env).1.isRateLimited = false := by
  unfold aggregate_quotes
  dsimp only
  rcases env.staleLookup with v | _ | _ <;> split_ifs <;> rfl

theorem get_quotes_core_notRateLimited (p : QuoteParams) (env : Env) :
    (get_quotes_core p env).1.isRateLimited = false := by
  unfold get_quotes_core
  rcases validate_params p with _ | e <;> rcases env.freshLookup with v | _ | _ <;>
    first | rfl | exact aggregate_quotes_notRateLimited p env

theorem aggregate_quotes_no_expire (p : QuoteParams) (env : Env) (k : String) (ttl : ℕ) :
    RedisCmd.expireCmd k ttl ∉ (aggregate_quotes p env).2 := by
  unfold aggregate_quotes
  dsimp only
  rcases env.staleLookup with v | _ | _ <;> split_ifs <;> simp

theorem get_quotes_core_no_expire (p : QuoteParams) (env : Env) (k : String) (ttl : ℕ) :
    RedisCmd.expireCmd k ttl ∉ (get_quotes_core p env).2 := by
  unfold get_quotes_core
  rcases validate_params p with _ | e <;> rcases env.freshLookup with v | _ | _ <;>
    first | exact aggregate_quotes_no_expire p env k ttl | simp

/-- C8.  On every request the handler issues INCRBY 1 on
`rate_limit:quotes:<clientIp>` first; it answers 429 exactly when the
returned count exceeds 100; it issues a 60-second EXPIRE on the key exactly
when the returned count is 1; and a failed increment is treated as count 0
(fail open), so a store outage never yields 429. -/
theorem C8_rate_limiter (p : QuoteParams) (env : Env) :
    ((get_quotes p env).2.head? =
      some (.incrby ("rate_limit:quotes:" ++ extract_client_ip env.xForwardedFor
        env.xRealIp env.cfConnectingIp env.connectInfo) 1)) ∧
    ((get_quotes p env).1.isRateLimited = true ↔ 100 < env.incrResult.getD 0) ∧
    (RedisCmd.expireCmd ("rate_limit:quotes:" ++ extract_client_ip env.xForwardedFor
        env.xRealIp env.cfConnectingIp env.connectInfo) 60 ∈ (get_quotes p env).2 ↔
      env.incrResult.getD 0 = 1) ∧
    (env.incrResult = none → (get_quotes p env).1.isRateLimited = false) := by
  unfold get_quotes
  dsimp only
  by_cases hc : (100 : ℤ) < env.incrResult.getD 0
  · rw [if_pos hc]
    refine ⟨rfl, ?_, ?_, ?_⟩
    · simpa [HttpResponse.isRateLimited] using hc
    · simp only [List.mem_singleton]
      constructor
      · intro h
        exact absurd h (by simp)
      · intro h
        rw [h] at hc
        exact absurd hc (by norm_num)
    · intro h
      rw [h] at hc
      exact absurd hc (by norm_num)
  · rw [if_neg hc]
    refine ⟨rfl, ?_, ?_, ?_⟩
    · rw [get_quotes_core_notRateLimited]
      simp only [Bool.false_eq_true, false_iff]
      exact hc
    · rw [List.mem_cons, List.mem_append]
      have hni : (RedisCmd.expireCmd ("rate_limit:quotes:" ++ extract_client_ip
          env.xForwardedFor env.xRealIp env.cfConnectingIp env.connectInfo) 60 =
          RedisCmd.incrby ("rate_limit:quotes:" ++ extract_client_ip env.xForwardedFor
          env.xRealIp env.cfConnectingIp env.connectInfo) 1) ↔ False := by simp
      rw [hni]
      have hnc := get_quotes_core_no_expire p env
        ("rate_limit:quotes:" ++ extract_client_ip env.xForwardedFor env.xRealIp
          env.cfConnectingIp env.connectInfo) 60
      by_cases h1 : env.incrResult.getD 0 = (1 : ℤ)
      · rw [if_pos h1]
        simp [h1]
      · rw [if_neg h1]
        simp [h1, hnc]
    · intro _
      exact get_quotes_core_notRateLimited p env

/-- Environment identical to `baseEnv` except the adapters fail with a
different message. -/
def envAllCrash : Env := { baseEnv with adapters := allFailedWith "crash" }

/-- Environment identical to `baseEnv` but with the rate-limit counter over
the cap. -/
def envOverCap : Env := { baseEnv with incrResult := some 101 }

/-- C2 (counterexample).  With every adapter failing and the stale cache
empty, the 502 response is one fixed `ErrorResponse` that does not depend
on the collected per-bridge errors at all: two environments whose adapters
fail with different error messages produce identical responses, so the
envelope cannot include the per-bridge errors list. -/
theorem C2_counterexample :
    get_quotes baseParams baseEnv = get_quotes baseParams envAllCrash ∧
    (get_quotes baseParams baseEnv).1 =
      .badGateway { error := "No quotes available and no cached data found" } :=
  ⟨rfl, rfl⟩

/-- C2 (amended).  When the count is within the cap, validation passes, the
fresh cache does not hit, every adapter fails, and the stale cache does not
hit, the handler returns 502 with the fixed body
`{"error": "No quotes available and no cached data found"}`; the collected
per-bridge errors are not part of the response body. -/
theorem C2_bad_gateway_fixed_body (p : QuoteParams) (env : Env)
    (h1 : env.incrResult.getD 0 ≤ 100)
    (hv : validate_params p = none)
    (hf : env.freshLookup.isHit = false)
    (ha : (get_all_bridge_quotes 5 env.adapters).filterMap (fun r => r.quote) = [])
    (hs : env.staleLookup.isHit = false) :
    (get_quotes p env).1 =
      .badGateway { error := "No quotes available and no cached data found" } := by
  unfold get_quotes
  dsimp only
  rw [if_neg (not_lt.mpr h1)]
  show (get_quotes_core p env).1 = _
  unfold get_quotes_core
  rw [hv]
  rcases hfl : env.freshLookup with v | _ | _
  · rw [hfl] at hf
    exact absurd hf (by simp [CacheLookup.isHit])
  all_goals
    show (aggregate_quotes p env).1 = _
  all_goals
    unfold aggregate_quotes
  all_goals
    dsimp only
  all_goals
    rw [ha]
  all_goals
    rcases hsl : env.staleLookup with w | _ | _
  · rw [hsl] at hs
    exact absurd hs (by simp [CacheLookup.isHit])
  · rfl
  · rfl
  · rw [hsl] at hs
    exact absurd hs (by simp [CacheLookup.isHit])
  · rfl
  · rfl

/-- Witness for C2's amended theorem at a concrete input. -/
theorem C2_witness :
    baseEnv.incrResult.getD 0 ≤ 100 ∧
    validate_params baseParams = none ∧
    baseEnv.freshLookup.isHit = false ∧
    (get_all_bridge_quotes 5 baseEnv.adapters).filterMap (fun r => r.quote) = [] ∧
    baseEnv.staleLookup.isHit = false ∧
    (get_quotes baseParams baseEnv).1 =
      .badGateway { error := "No quotes available and no cached data found" } :=
  ⟨by decide, rfl, rfl, rfl, rfl,
   C2_bad_gateway_fixed_body baseParams baseEnv (by decide) rfl rfl rfl rfl⟩

/-- C3 (counterexample).  A request whose chains are equal up to case,
issued while the client's rate-limit count is over the cap, is answered
429 — not 400 — and the rate-limit counter is still incremented (the
INCRBY appears in the issued-command trace). -/
theorem C3_counterexample :
    get_quotes sameChainParams envOverCap =
      (.tooManyRequests { error := "Rate limit exceeded. Maximum 100 requests per minute." },
       [.incrby "rate_limit:quotes:10.0.0.1" 1]) ∧
    (get_quotes sameChainParams envOverCap).1 ≠
      .badRequest { error := "Source and destination chains must be different" } := by
  refine ⟨rfl, ?_⟩
  rw [show (get_quotes sameChainParams envOverCap).1 =
    .tooManyRequests { error := "Rate limit exceeded. Maximum 100 requests per minute." } from rfl]
  decide

/-- C3 (amended).  The rate-limit check precedes validation: when the
returned count is over the cap, every request — same-chain or not — gets
429; when it is within the cap and the earlier field checks pass, a
case-insensitively same-chain request gets 400 with the
"must be different" message, no adapter is consulted (the issued commands
are exactly the INCRBY plus the conditional EXPIRE), but the rate-limit
counter has still been incremented. -/
theorem C3_validation_after_rate_limit (p : QuoteParams) (env : Env) :
    (100 < env.incrResult.getD 0 →
      get_quotes p env =
        (.tooManyRequests { error := "Rate limit exceeded. Maximum 100 requests per minute." },
         [.incrby ("rate_limit:quotes:" ++ extract_client_ip env.xForwardedFor
            env.xRealIp env.cfConnectingIp env.connectInfo) 1])) ∧
    (env.incrResult.getD 0 ≤ 100 →
      p.from_chain.isEmpty = false → p.to_chain.isEmpty = false →
      p.token.isEmpty = false → f64LeZero p.amount = false →
      eqIgnoreAsciiCase p.from_chain p.to_chain = true →
      get_quotes p env =
        (.badRequest { error := "Source and destination chains must be different" },
         .incrby ("rate_limit:quotes:" ++ extract_client_ip env.xForwardedFor
            env.xRealIp env.cfConnectingIp env.connectInfo) 1 ::
           (if env.incrResult.getD 0 = 1 then
             [.expireCmd ("rate_limit:quotes:" ++ extract_client_ip env.xForwardedFor
                env.xRealIp env.cfConnectingIp env.connectInfo) 60]
            else []))) := by
  constructor
  · intro hc
    unfold get_quotes
    dsimp only
    rw [if_pos hc]
  · intro hc hfrom hto htok hamt hsame
    have hv : validate_params p =
        some { error := "Source and destination chains must be different" } := by
      unfold validate_params
      simp [hfrom, hto, htok, hamt, hsame]
    have hcore : get_quotes_core p env =
        (.badRequest { error := "Source and destination chains must be different" }, []) := by
      unfold get_quotes_core
      rw [hv]
    unfold get_quotes
    dsimp only
    rw [if_neg (not_lt.mpr hc), hcore]
    simp

/-- Witness for C3's amended theorem at concrete inputs: an over-cap
same-chain request (429) and an in-cap same-chain request (400 plus the
recorded INCRBY and EXPIRE). -/
theorem C3_witness :
    (100 < envOverCap.incrResult.getD 0 ∧
      get_quotes sameChainParams envOverCap =
        (.tooManyRequests { error := "Rate limit exceeded. Maximum 100 requests per minute." },
         [.incrby ("rate_limit:quotes:" ++ extract_client_ip envOverCap.xForwardedFor
            envOverCap.xRealIp envOverCap.cfConnectingIp envOverCap.connectInfo) 1])) ∧
    (baseEnv.incrResult.getD 0 ≤ 100 ∧
      get_quotes sameChainParams baseEnv =
        (.badRequest { error := "Source and destination chains must be different" },
         .incrby ("rate_limit:quotes:" ++ extract_client_ip baseEnv.xForwardedFor
            baseEnv.xRealIp baseEnv.cfConnectingIp baseEnv.connectInfo) 1 ::
           (if baseEnv.incrResult.getD 0 = 1 then
             [.expireCmd ("rate_limit:quotes:" ++ extract_client_ip baseEnv.xForwardedFor
                baseEnv.xRealIp baseEnv.cfConnectingIp baseEnv.connectInfo) 60]
            else []))) :=
  ⟨⟨by decide, (C3_validation_after_rate_limit sameChainParams envOverCap).1 (by decide)⟩,
   ⟨by decide, (C3_validation_after_rate_limit sameChainParams baseEnv).2
      (by decide) rfl rfl rfl rfl rfl⟩⟩

/-- Environment with a count of 5 where Everclear yields a low-scoring
quote and Hop a high-scoring one. -/
def envTwoQuotes : Env := { baseEnv with incrResult := some 5, adapters := twoQuoteOutcomes }

theorem calculate_score_low : calculate_score 1 3600 false false = 1/10 := by
  rw [calculate_score, calculate_score_with_config_eq]
  norm_num [rclamp, ScoringConfig.default, ScoringWeights.default]

theorem calculate_score_high : calculate_score 0 0 false false = 9/10 := by
  rw [calculate_score, calculate_score_with_config_eq]
  norm_num [rclamp, ScoringConfig.default, ScoringWeights.default]

/-- C1 (counterexample).  A fresh aggregation (`X-Cache: MISS`) in which
Everclear scores 1/10 and Hop scores 9/10 returns the routes in registry
order — Everclear before Hop — which violates the claimed
score-descending order. -/
theorem C1_counterexample :
    (get_quotes baseParams envTwoQuotes).1.isMissOk = true ∧
    ¬ routesSortedSpec ((get_quotes baseParams envTwoQuotes).1.routesOrEmpty) := by
  constructor
  · rfl
  · have hr : (get_quotes baseParams envTwoQuotes).1.routesOrEmpty =
        [ { bridge := "Everclear", cost := 1, est_time := 3600, liquidity := "2M USDC",
            score := calculate_score 1 3600 false false },
          { bridge := "Hop", cost := 0, est_time := 0, liquidity := "1M USDC",
            score := calculate_score 0 0 false false } ] := rfl
    rw [hr]
    unfold routesSortedSpec
    rw [List.chain'_cons]
    intro h
    rcases h.1 with hlt | ⟨heq, _⟩
    · rw [calculate_score_low, calculate_score_high] at hlt
      norm_num at hlt
    · rw [calculate_score_low, calculate_score_high] at heq
      norm_num at heq

theorem process_quotes_map_bridge (qs : List BridgeQuote)
    (sec : Option (List SecurityMetadata)) :
    (process_quotes_with_security qs sec).map (fun r => r.bridge) =
      qs.map (fun q => q.bridge) := by
  unfold process_quotes_with_security
  rw [List.map_map]
  rfl

/-- C1 (amended).  Every fresh 200 aggregation returns `routes` in the
aggregator's registry order — one entry per successful quote, bridge names
in the same order as the successful quotes — and performs no sorting by
score. -/
theorem C1_routes_in_registry_order (p : QuoteParams) (env : Env)
    (body : AggregatedQuotesResponse) (tr : List RedisCmd)
    (h : get_quotes p env = (.okResp .miss body, tr)) :
    body.routes.map (fun r => r.bridge) =
      ((get_all_bridge_quotes 5 env.adapters).filterMap (fun r => r.quote)).map
        (fun q => q.bridge) := by
  unfold get_quotes at h
  dsimp only at h
  by_cases hc : (100 : ℤ) < env.incrResult.getD 0
  · rw [if_pos hc] at h
    simp at h
  · rw [if_neg hc] at h
    have h1 : (get_quotes_core p env).1 = .okResp .miss body :=
      congrArg Prod.fst h
    unfold get_quotes_core at h1
    rcases hv : validate_params p with _ | e
    · rw [hv] at h1
      rcases hfl : env.freshLookup with v | _ | _
      all_goals rw [hfl] at h1
      · simp at h1
      all_goals
        unfold aggregate_quotes at h1
      all_goals
        dsimp only at h1
      all_goals
        split at h1
      · rcases hsl : env.staleLookup with w | _ | _ <;> rw [hsl] at h1 <;> simp at h1
      · rw [HttpResponse.okResp.injEq] at h1
        rw [← h1.2]
        exact process_quotes_map_bridge _ _
      · rcases hsl : env.staleLookup with w | _ | _ <;> rw [hsl] at h1 <;> simp at h1
      · rw [HttpResponse.okResp.injEq] at h1
        rw [← h1.2]
        exact process_quotes_map_bridge _ _
    · rw [hv] at h1
      simp at h1

/-- The body and trace of the concrete two-quote MISS aggregation. -/
def twoQuoteBody : AggregatedQuotesResponse :=
  { routes := [ { bridge := "Everclear", cost := 1, est_time := 3600,
                  liquidity := "2M USDC", score := calculate_score 1 3600 false false },
                { bridge := "Hop", cost := 0, est_time := 0,
                  liquidity := "1M USDC", score := calculate_score 0 0 false false } ]
    errors := [] }

/-- Witness for C1's amended theorem at the concrete two-quote input. -/
theorem C1_witness :
    get_quotes baseParams envTwoQuotes =
      (.okResp .miss twoQuoteBody,
       [.incrby "rate_limit:quotes:10.0.0.1" 1,
        .getCache (generate_cache_key baseParams),
        .setCache (generate_cache_key baseParams) 15,
        .setCache (generate_cache_key baseParams ++ "_stale") 300]) ∧
    twoQuoteBody.routes.map (fun r => r.bridge) =
      ((get_all_bridge_quotes 5 envTwoQuotes.adapters).filterMap (fun r => r.quote)).map
        (fun q => q.bridge) :=
  ⟨rfl, C1_routes_in_registry_order baseParams envTwoQuotes twoQuoteBody _ rfl⟩

theorem foldl_dedup_mem (l acc : List String) (b : String)
    (h : b ∈ l.foldl (fun acc x => if acc.contains x then acc else acc ++ [x]) acc) :
    b ∈ acc ∨ b ∈ l := by
  induction l generalizing acc with
  | nil => exact Or.inl h
  | cons a t ih =>
    rw [List.foldl_cons] at h
    rcases ih _ h with h1 | h1
    · by_cases hcon : acc.contains a
      · rw [if_pos hcon] at h1
        exact Or.inl h1
      · rw [if_neg hcon] at h1
        rcases List.mem_append.mp h1 with h2 | h2
        · exact Or.inl h2
        · exact Or.inr (List.mem_cons.mpr (Or.inl (List.mem_singleton.mp h2)))
    · exact Or.inr (List.mem_cons.mpr (Or.inr h1))

theorem mem_dedupFirst {l : List String} {b : String} (h : b ∈ dedupFirst l) :
    b ∈ l := by
  unfold dedupFirst at h
  rcases foldl_dedup_mem l [] b h with h1 | h1
  · exact absurd h1 (List.not_mem_nil b)
  · exact h1

theorem auditQuery_bridge_mem {tbl : List AuditReport} {names : List String}
    {row : AuditRow} (h : row ∈ auditQuery tbl names) :
    ∃ r ∈ tbl, r.bridge = row.bridge := by
  unfold auditQuery at h
  rcases List.mem_map.mp h with ⟨b, hb, heq⟩
  rcases List.mem_map.mp (mem_dedupFirst hb) with ⟨r, hr, hrb⟩
  refine ⟨r, (List.mem_filter.mp hr).1, ?_⟩
  rw [← heq]
  exact hrb

theorem exploitQuery_bridge_mem {tbl : List ExploitEvent} {names : List String}
    {row : ExploitRow} (h : row ∈ exploitQuery tbl names) :
    ∃ r ∈ tbl, r.bridge = row.bridge := by
  unfold exploitQuery at h
  rcases List.mem_map.mp h with ⟨b, hb, heq⟩
  rcases List.mem_map.mp (mem_dedupFirst hb) with ⟨r, hr, hrb⟩
  refine ⟨r, (List.mem_filter.mp hr).1, ?_⟩
  rw [← heq]
  exact hrb

theorem lookupLast_eq_none {α : Type} (key : α → String) (l : List α) (b : String)
    (h : ∀ x ∈ l, key x ≠ b) : lookupLast key l b = none := by
  unfold lookupLast
  have : l.filter (fun x => key x == b) = [] := by
    rw [List.filter_eq_nil_iff]
    intro x hx
    simpa using h x hx
  rw [this]
  rfl

/-- C9.  For every non-empty bridge-name list, the batch metadata lookup
returns one entry per requested name in input order; a name with no rows in
either the audit or the exploit table gets
`has_audit = false, has_exploit = false, exploit_count = 0`; and in the
handler a quote whose bridge is absent from the returned metadata is scored
with `has_audit = has_exploit = false`. -/
theorem C9_batch_metadata (db : Database) (names : List String) (hne : names ≠ []) :
    ((get_batch_security_metadata db names).map (fun m => m.bridge) = names) ∧
    (∀ m ∈ get_batch_security_metadata db names,
      (∀ r ∈ db.audit_reports, r.bridge ≠ m.bridge) →
      (∀ r ∈ db.exploit_history, r.bridge ≠ m.bridge) →
      m.has_audit = false ∧ m.has_exploit = false ∧ m.exploit_count = 0) ∧
    (∀ (quotes : List BridgeQuote) (sec : Option (List SecurityMetadata))
        (q : BridgeQuote), q ∈ quotes →
      (∀ m ∈ sec.getD [], m.bridge ≠ q.bridge) →
      ({ bridge := q.bridge, cost := q.fee, est_time := q.est_time,
         liquidity := q.liquidity,
         score := calculate_score q.fee q.est_time false false } : QuoteResponse) ∈
        process_quotes_with_security quotes sec) := by
  have hE : names.isEmpty = false := by
    cases names with
    | nil => exact absurd rfl hne
    | cons a t => rfl
  refine ⟨?_, ?_, ?_⟩
  · unfold get_batch_security_metadata
    rw [if_neg (by simp [hE]), List.map_map]
    show names.map (fun b => b) = names
    simp
  · intro m hm hA hB
    unfold get_batch_security_metadata at hm
    rw [if_neg (by simp [hE])] at hm
    rcases List.mem_map.mp hm with ⟨b, hb, hfb⟩
    have hmb : m.bridge = b := by
      rw [← hfb]
    rw [hmb] at hA hB
    have hlnA : lookupLast (fun r => r.bridge) (auditQuery db.audit_reports names) b
        = none := by
      apply lookupLast_eq_none
      intro row hrow hrb
      rcases auditQuery_bridge_mem hrow with ⟨r, hr, hreq⟩
      exact hA r hr (hreq.trans hrb)
    have hlnE : lookupLast (fun r => r.bridge) (exploitQuery db.exploit_history names) b
        = none := by
      apply lookupLast_eq_none
      intro row hrow hrb
      rcases exploitQuery_bridge_mem hrow with ⟨r, hr, hreq⟩
      exact hB r hr (hreq.trans hrb)
    rw [← hfb]
    dsimp only
    rw [hlnA, hlnE]
    exact ⟨rfl, rfl, rfl⟩
  · intro quotes sec q hq habs
    have hln : lookupLast (fun m => m.bridge) (sec.getD []) q.bridge = none :=
      lookupLast_eq_none _ _ _ habs
    unfold process_quotes_with_security
    apply List.mem_map.mpr
    refine ⟨q, hq, ?_⟩
    dsimp only
    rw [hln]
    rfl

/-- Witness for C9 at a concrete database, name list and quote list. -/
theorem C9_witness :
    (["Hop", "Wormhole", "Axelar"] : List String) ≠ [] ∧
    (get_batch_security_metadata
        { audit_reports := [{ bridge := "Hop", audit_date := 5, result := some "passed" }]
          exploit_history := [{ bridge := "Wormhole", loss_amount := 320 }] }
        ["Hop", "Wormhole", "Axelar"]).map (fun m => m.bridge) =
      ["Hop", "Wormhole", "Axelar"] ∧
    ({ bridge := "Synapse", cost := 0, est_time := 0, liquidity := "1M USDC",
       score := calculate_score 0 0 false false } : QuoteResponse) ∈
      process_quotes_with_security
        [{ bridge := "Synapse", fee := 0, est_time := 0, liquidity := "1M USDC" }] none :=
  ⟨by decide,
   (C9_batch_metadata
     { audit_reports := [{ bridge := "Hop", audit_date := 5, result := some "passed" }]
       exploit_history := [{ bridge := "Wormhole", loss_amount := 320 }] }
     ["Hop", "Wormhole", "Axelar"] (by decide)).1,
   (C9_batch_metadata
     { audit_reports := [{ bridge := "Hop", audit_date := 5, result := some "passed" }]
       exploit_history := [{ bridge := "Wormhole", loss_amount := 320 }] }
     ["Hop", "Wormhole", "Axelar"] (by decide)).2.2
     [{ bridge := "Synapse", fee := 0, est_time := 0, liquidity := "1M USDC" }] none
     { bridge := "Synapse", fee := 0, est_time := 0, liquidity := "1M USDC" }
     (List.mem_singleton.mpr rfl)
     (fun m hm => absurd hm (List.not_mem_nil m))⟩

/-- Witness for C7 at concrete operations: one that always fails with the
non-retryable `UnsupportedAsset` (one execution, no sleeps) and one that
always fails with the retryable `Network` error (three executions for
`retries = 2`, sleeping 100 ms and 200 ms). -/
theorem C7_witness :
    retry_request
        (fun _ => (Except.error (BridgeError.unsupportedAsset "DOGE") :
          Except BridgeError Unit)) 3
      = (.error (.unsupportedAsset "DOGE"), 1, []) ∧
    retry_request
        (fun _ => (Except.error (BridgeError.network "connection reset") :
          Except BridgeError Unit)) 2
      = (.error (.network "connection reset"), 3,
         (List.range 2).map (fun attempt => 100 * 2 ^ attempt)) :=
  ⟨((C7_retry_policy _ 3 (fun _ => .unsupportedAsset "DOGE")) (fun _ => rfl)).1 rfl,
   ((C7_retry_policy _ 2 (fun _ => .network "connection reset")) (fun _ => rfl)).2
     (fun _ => rfl)⟩

/-- Environment in which the Redis increment fails. -/
def envRedisDown : Env := { baseEnv with incrResult := none }

/-- Witness for C8 at a concrete input: a failed increment is treated as
count 0 and does not produce a 429. -/
theorem C8_witness :
    envRedisDown.incrResult = none ∧
    (get_quotes baseParams envRedisDown).1.isRateLimited = false :=
  ⟨rfl, (C8_rate_limiter baseParams envRedisDown).2.2.2 rfl⟩

end BridgeRouter
